import Mathlib

/-!
Verification of the LangGraph workflow execution core.

Shallow embedding of the state container, checkpoint store, graph executor
and routing strategies of `src/lib/state.ts` and `src/lib/graph.ts`
(a TypeScript multi-agent workflow engine), together with proofs and
refutations of the specified properties.

Modelling conventions:
* JavaScript numbers that the code uses as epoch-millisecond timestamps or
  counters are modelled as `Nat`.
* `Date.now()` and `Math.random()` are impure; every function that calls
  them takes the drawn value as an explicit oracle argument.
* JavaScript `undefined`/`null` are modelled with `Option`; JS falsiness of
  `""` and `0` is spelled out wherever the source uses `||` defaulting.
* A JS object used as a string-keyed map is modelled as an insertion-ordered
  association list (`alistGet` / `alistSet` below), matching the fact that
  assigning to an existing key keeps its position and assigning a fresh key
  appends.
* Metadata values (`Record<string, any>`) are restricted to the value shapes
  the repository actually stores in them: strings, integers, booleans, string
  lists (`executionPath`, `parallelTargets`) and null.
-/

/-- The `role` of a `Message` in `state.ts`; at runtime it is one of the strings
`"user" | "assistant" | "system"`, modelled simply as `String`. -/
structure Message where
  role : String
  content : String
  /-- Field `timestamp?: number` — optional in the interface. -/
  timestamp : Option Nat
deriving DecidableEq, Repr

/-- The metadata value shapes stored by the repository
(`Record<string, any>` restricted to what the code writes). -/
inductive MetaValue where
  | str : String → MetaValue
  | num : Int → MetaValue
  | boolv : Bool → MetaValue
  | strList : List String → MetaValue
  | nullv : MetaValue
deriving DecidableEq, Repr

/-- Lookup in a JS object used as a map (`obj[key]`, `undefined` if absent). -/
def alistGet {α : Type} : List (String × α) → String → Option α
  | [], _ => none
  | (k, v) :: rest, key => if k = key then some v else alistGet rest key

/-- Assignment in a JS object used as a map (`obj[key] = v`): an existing key
keeps its position, a fresh key is appended. -/
def alistSet {α : Type} : List (String × α) → String → α → List (String × α)
  | [], key, v => [(key, v)]
  | (k, w) :: rest, key, v =>
    if k = key then (key, v) :: rest else (k, w) :: alistSet rest key v

/-- The state container of `state.ts` (`class AgentState`).  The class
constant `version = 1` is carried by `serialize` below. -/
structure AgentState where
  messages : List Message
  nextAgent : Option String
  metadata : List (String × MetaValue)
  pendingApproval : Bool
  approvalCount : Nat
  maxApprovals : Nat
deriving DecidableEq, Repr

/-- The shape `Partial<AgentState>`: the constructor argument, and also the shape of a
parsed serialization blob (any field may be absent).  The nested
`Option (Option String)` for `nextAgent` distinguishes "field absent"
(outer `none`) from "field present and null" (`some none`). -/
structure PartialState where
  version : Option Nat := none
  messages : Option (List Message) := none
  nextAgent : Option (Option String) := none
  metadata : Option (List (String × MetaValue)) := none
  pendingApproval : Option Bool := none
  approvalCount : Option Nat := none
  maxApprovals : Option Nat := none
deriving DecidableEq, Repr

/-- JS `x || null` applied to a `string | null` value: the empty string is
falsy and collapses to null. -/
def falsyString : Option String → Option String
  | none => none
  | some s => if s = "" then none else some s

/-- JS `x || 3` applied to a possibly-absent number: `undefined` and `0` are
falsy and become 3 (used for `maxApprovals`). -/
def falsyMax : Option Nat → Nat
  | none => 3
  | some n => if n = 0 then 3 else n

/-- The `constructor(initialState?: Partial<AgentState>)` of `AgentState`.
With no argument the class field initializers apply; with an argument each
field is `initialState.f || default`.  Note `messages || []` and
`metadata || {}` are the identity on present values (arrays and objects are
always truthy), `approvalCount || 0` and `pendingApproval || false` are the
identity on the value shapes we model, while `nextAgent || null` collapses
`""` and `maxApprovals || 3` collapses `0`. -/
def AgentState.construct (initialState : Option PartialState) : AgentState :=
  match initialState with
  | none =>
    { messages := [], nextAgent := none, metadata := [],
      pendingApproval := false, approvalCount := 0, maxApprovals := 3 }
  | some init =>
    { messages := init.messages.getD []
      nextAgent := falsyString (init.nextAgent.getD none)
      metadata := init.metadata.getD []
      pendingApproval := init.pendingApproval.getD false
      approvalCount := init.approvalCount.getD 0
      maxApprovals := falsyMax init.maxApprovals }

/-- JS `message.timestamp || Date.now()`: an absent timestamp — and also an
explicit `0`, which is falsy — is replaced by the current time. -/
def tsDefault (ts : Option Nat) (now : Nat) : Nat :=
  match ts with
  | some t => if t = 0 then now else t
  | none => now

/-- Method `addMessage(message)`; `now` is the `Date.now()` oracle. -/
def AgentState.addMessage (s : AgentState) (m : Message) (now : Nat) : AgentState :=
  { s with messages :=
      s.messages ++ [{ m with timestamp := some (tsDefault m.timestamp now) }] }

/-- Method `setNextAgent(agent)`. -/
def AgentState.setNextAgent (s : AgentState) (agent : Option String) : AgentState :=
  { s with nextAgent := agent }

/-- Method `getNextAgent()`. -/
def AgentState.getNextAgent (s : AgentState) : Option String :=
  s.nextAgent

/-- Method `setMetadata(key, value)`. -/
def AgentState.setMetadata (s : AgentState) (key : String) (value : MetaValue) : AgentState :=
  { s with metadata := alistSet s.metadata key value }

/-- Method `getMetadata(key)`. -/
def AgentState.getMetadata (s : AgentState) (key : String) : Option MetaValue :=
  alistGet s.metadata key

/-- The reserved human-pause sentinel agent name. -/
def humanSentinel : String := "__human__"

/-- Method `requestApproval()`. -/
def AgentState.requestApproval (s : AgentState) : AgentState :=
  { s with pendingApproval := true, nextAgent := some humanSentinel }

/-- Method `isWaitingForApproval()`. -/
def AgentState.isWaitingForApproval (s : AgentState) : Bool :=
  s.pendingApproval

/-- Method `approve(approved, feedback?)`; `now` is the `Date.now()` oracle for the
feedback message.  `if (feedback)` treats both an absent and an empty
feedback string as "no feedback". -/
def AgentState.approve (s : AgentState) (approved : Bool) (feedback : Option String)
    (now : Nat) : AgentState :=
  let s1 : AgentState :=
    { s with pendingApproval := false, approvalCount := s.approvalCount + 1 }
  let s2 : AgentState :=
    match feedback with
    | some f =>
      if f = "" then s1
      else { s1 with messages :=
        s1.messages ++ [{ role := "user", content := "Feedback: " ++ f, timestamp := some now }] }
    | none => s1
  if approved then { s2 with nextAgent := none }
  else if s2.approvalCount ≥ s2.maxApprovals then { s2 with nextAgent := none }
  else s2

/-- Method `serialize()`.  The JSON text layer (`JSON.stringify`) is lossless for the
modelled field values and is elided: the wire blob is modelled structurally
as a `PartialState` with every field present. -/
def AgentState.serialize (s : AgentState) : PartialState :=
  { version := some 1
    messages := some s.messages
    nextAgent := some s.nextAgent
    metadata := some s.metadata
    pendingApproval := some s.pendingApproval
    approvalCount := some s.approvalCount
    maxApprovals := some s.maxApprovals }

/-- Method `static deserialize(json)`: applies its own `||` defaults to the parsed
blob and passes the result to the constructor (which applies the same
defaults again). -/
def AgentState.deserialize (data : PartialState) : AgentState :=
  AgentState.construct (some
    { messages := some (data.messages.getD [])
      nextAgent := some (falsyString (data.nextAgent.getD none))
      metadata := some (data.metadata.getD [])
      pendingApproval := some (data.pendingApproval.getD false)
      approvalCount := some (data.approvalCount.getD 0)
      maxApprovals := some (falsyMax data.maxApprovals) })

/-- Method `clone()`: `new AgentState({messages: [...this.messages], ...})`.  The
value copies `[...]`/`{...}` are the identity in this value-level model (the
reference-level sharing they do NOT remove is modelled separately by
`RefState` below); the constructor defaulting is applied to every field,
exactly as in the source. -/
def AgentState.clone (s : AgentState) : AgentState :=
  AgentState.construct (some
    { messages := some s.messages
      nextAgent := some s.nextAgent
      metadata := some s.metadata
      pendingApproval := some s.pendingApproval
      approvalCount := some s.approvalCount
      maxApprovals := some s.maxApprovals })

/-! ### Helper lemmas about `approve` and `clone` (shared by several claims) -/

theorem AgentState.approve_approvalCount (s : AgentState) (approved : Bool)
    (feedback : Option String) (now : Nat) :
    (s.approve approved feedback now).approvalCount = s.approvalCount + 1 := by
  cases feedback <;> simp only [AgentState.approve] <;> split_ifs <;> simp_all

theorem AgentState.approve_maxApprovals (s : AgentState) (approved : Bool)
    (feedback : Option String) (now : Nat) :
    (s.approve approved feedback now).maxApprovals = s.maxApprovals := by
  cases feedback <;> simp only [AgentState.approve] <;> split_ifs <;> simp_all

theorem AgentState.approve_pendingApproval (s : AgentState) (approved : Bool)
    (feedback : Option String) (now : Nat) :
    (s.approve approved feedback now).pendingApproval = false := by
  cases feedback <;> simp only [AgentState.approve] <;> split_ifs <;> simp_all

/-- JS truthiness of the optional `feedback` argument (`if (feedback)`). -/
def feedbackGiven : Option String → Bool
  | none => false
  | some f => !(f == "")

theorem AgentState.approve_messages (s : AgentState) (approved : Bool)
    (feedback : Option String) (now : Nat) :
    (s.approve approved feedback now).messages =
      s.messages ++
        (if feedbackGiven feedback then
          [{ role := "user", content := "Feedback: " ++ feedback.getD "", timestamp := some now }]
        else []) := by
  cases feedback <;> simp only [AgentState.approve, feedbackGiven] <;>
    split_ifs <;> simp_all

theorem AgentState.approve_nextAgent (s : AgentState) (approved : Bool)
    (feedback : Option String) (now : Nat) :
    (s.approve approved feedback now).nextAgent =
      if approved = true ∨ s.maxApprovals ≤ s.approvalCount + 1 then none
      else s.nextAgent := by
  cases feedback <;> simp only [AgentState.approve] <;> split_ifs <;>
    simp_all <;> omega

theorem AgentState.clone_fields (s : AgentState) :
    s.clone.messages = s.messages ∧
    s.clone.nextAgent = falsyString s.nextAgent ∧
    s.clone.metadata = s.metadata ∧
    s.clone.pendingApproval = s.pendingApproval ∧
    s.clone.approvalCount = s.approvalCount ∧
    s.clone.maxApprovals = falsyMax (some s.maxApprovals) := by
  simp [AgentState.clone, AgentState.construct]

theorem AgentState.roundtrip_fields (s : AgentState) :
    (AgentState.deserialize (AgentState.serialize s)).messages = s.messages ∧
    (AgentState.deserialize (AgentState.serialize s)).nextAgent
      = falsyString (falsyString s.nextAgent) ∧
    (AgentState.deserialize (AgentState.serialize s)).metadata = s.metadata ∧
    (AgentState.deserialize (AgentState.serialize s)).pendingApproval = s.pendingApproval ∧
    (AgentState.deserialize (AgentState.serialize s)).approvalCount = s.approvalCount ∧
    (AgentState.deserialize (AgentState.serialize s)).maxApprovals
      = falsyMax (some (falsyMax (some s.maxApprovals))) := by
  simp [AgentState.deserialize, AgentState.serialize, AgentState.construct]

/-! ### C3 — serialization round-trip -/

/-- C3 (counterexample): the round-trip is NOT lossless for every field value.
A state whose `nextAgent` is the empty string (set through the public
`setNextAgent`) comes back with `nextAgent == null`, because `deserialize`
applies the falsy default `data.nextAgent || null`. -/
theorem c3_counterexample :
    (AgentState.deserialize (AgentState.serialize
        ((AgentState.construct none).setNextAgent (some (""))))).nextAgent ≠
      ((AgentState.construct none).setNextAgent (some (""))).nextAgent := by
  decide

/-- C3 (amended): for every state container whose `nextAgent` is not the empty
string and whose `maxApprovals` is nonzero, `deserialize(serialize(s))` is
identical to `s` in every field. -/
theorem c3_roundtrip (s : AgentState) (h1 : s.nextAgent ≠ some (""))
    (h2 : s.maxApprovals ≠ 0) :
    AgentState.deserialize (AgentState.serialize s) = s := by
  obtain ⟨msgs, na, md, p, ac, ma⟩ := s
  simp only [AgentState.deserialize, AgentState.serialize, AgentState.construct,
    Option.getD_some] at *
  cases na with
  | none => simp [falsyString, falsyMax, h2]
  | some a =>
    have ha : a ≠ "" := by intro h; exact h1 (by simp [h])
    simp [falsyString, falsyMax, ha, h2]

/-- C3 (witness): the round-trip theorem applied to a concrete state. -/
theorem c3_roundtrip_witness :
    AgentState.deserialize (AgentState.serialize (AgentState.construct none)) =
      AgentState.construct none :=
  c3_roundtrip (AgentState.construct none) (by decide) (by decide)

/-! ### C6 — `approve` behaviour -/

/-- C6: `approve(approved, feedback)` increments `approvalCount` by one,
clears `pendingApproval`, appends exactly one user message when feedback is
given (JS-truthy: present and non-empty), and forces `nextAgent == null`
exactly when `approved` is true or the incremented count has reached
`maxApprovals`; otherwise `nextAgent` is left unchanged. -/
theorem c6_approve (s : AgentState) (approved : Bool) (feedback : Option String)
    (now : Nat) :
    (s.approve approved feedback now).approvalCount = s.approvalCount + 1 ∧
    (s.approve approved feedback now).pendingApproval = false ∧
    (s.approve approved feedback now).messages =
      s.messages ++
        (if feedbackGiven feedback then
          [{ role := "user", content := "Feedback: " ++ feedback.getD "",
             timestamp := some now }]
        else []) ∧
    (s.approve approved feedback now).nextAgent =
      (if approved = true ∨ s.maxApprovals ≤ s.approvalCount + 1 then none
       else s.nextAgent) :=
  ⟨AgentState.approve_approvalCount s approved feedback now,
   AgentState.approve_pendingApproval s approved feedback now,
   AgentState.approve_messages s approved feedback now,
   AgentState.approve_nextAgent s approved feedback now⟩

/-! ### C10 — constructor / deserializer defaults -/

/-- C10: constructing or deserializing with `maxApprovals` absent or `0`
yields `maxApprovals == 3`; the other fields default to
`0 / false / null / [] / {}` when absent (and `nextAgent` also collapses the
falsy `""` to null); consequently, starting from the defaults, three
`approve` resolutions — approved or not — always end with
`nextAgent == null` (the forced-proceed valve). -/
theorem c10_defaults (a1 a2 a3 : Bool) (f1 f2 f3 : Option String)
    (n1 n2 n3 : Nat) :
    (AgentState.construct none).maxApprovals = 3 ∧
    (AgentState.construct none).approvalCount = 0 ∧
    (AgentState.construct none).pendingApproval = false ∧
    (AgentState.construct none).nextAgent = none ∧
    (AgentState.construct none).messages = [] ∧
    (AgentState.construct none).metadata = [] ∧
    (AgentState.construct (some { maxApprovals := some 0 })).maxApprovals = 3 ∧
    (AgentState.construct (some { nextAgent := some (some ("")) })).nextAgent = none ∧
    (AgentState.deserialize {}).maxApprovals = 3 ∧
    (AgentState.deserialize { maxApprovals := some 0 }).maxApprovals = 3 ∧
    (AgentState.deserialize {}).approvalCount = 0 ∧
    (AgentState.deserialize {}).pendingApproval = false ∧
    (AgentState.deserialize {}).nextAgent = none ∧
    (AgentState.deserialize {}).messages = [] ∧
    (AgentState.deserialize {}).metadata = [] ∧
    ((((AgentState.construct none).approve a1 f1 n1).approve a2 f2 n2).approve
        a3 f3 n3).nextAgent = none := by
  refine ⟨by decide, by decide, by decide, by decide, by decide, by decide,
    by decide, by decide, by decide, by decide, by decide, by decide,
    by decide, by decide, by decide, ?_⟩
  rw [AgentState.approve_nextAgent]
  simp [AgentState.approve_approvalCount, AgentState.approve_maxApprovals,
    AgentState.construct]

/-! ### C7 — the pending-approval/sentinel invariant -/

/-- States reachable from a freshly constructed state container by the public
operations (the operation set of the claim). -/
inductive Reachable : AgentState → Prop where
  | init : Reachable (AgentState.construct none)
  | addMessage (s : AgentState) (m : Message) (now : Nat) :
      Reachable s → Reachable (s.addMessage m now)
  | setNextAgent (s : AgentState) (a : Option String) :
      Reachable s → Reachable (s.setNextAgent a)
  | setMetadata (s : AgentState) (k : String) (v : MetaValue) :
      Reachable s → Reachable (s.setMetadata k v)
  | requestApproval (s : AgentState) :
      Reachable s → Reachable s.requestApproval
  | approve (s : AgentState) (a : Bool) (f : Option String) (now : Nat) :
      Reachable s → Reachable (s.approve a f now)
  | clone (s : AgentState) : Reachable s → Reachable s.clone
  | roundtrip (s : AgentState) :
      Reachable s → Reachable (AgentState.deserialize (AgentState.serialize s))

/-- C7 (counterexample): the invariant "pendingApproval implies the sentinel"
does NOT hold for every reachable state: `requestApproval()` followed by
`setNextAgent("writer")` leaves `pendingApproval == true` with a non-sentinel
`nextAgent`. -/
theorem c7_counterexample :
    ¬ (∀ s : AgentState, Reachable s → s.pendingApproval = true →
        s.nextAgent = some humanSentinel) := by
  intro h
  have hbad :=
    h (((AgentState.construct none).requestApproval).setNextAgent (some ("writer")))
      (Reachable.setNextAgent _ _ (Reachable.requestApproval _ Reachable.init))
      (by decide)
  exact absurd hbad (by decide)

/-- States reachable when `setNextAgent` is only ever applied to a state that
is not pending approval (the amendment the counterexample forces). -/
inductive ReachableSafe : AgentState → Prop where
  | init : ReachableSafe (AgentState.construct none)
  | addMessage (s : AgentState) (m : Message) (now : Nat) :
      ReachableSafe s → ReachableSafe (s.addMessage m now)
  | setNextAgent (s : AgentState) (a : Option String) :
      s.pendingApproval = false →
      ReachableSafe s → ReachableSafe (s.setNextAgent a)
  | setMetadata (s : AgentState) (k : String) (v : MetaValue) :
      ReachableSafe s → ReachableSafe (s.setMetadata k v)
  | requestApproval (s : AgentState) :
      ReachableSafe s → ReachableSafe s.requestApproval
  | approve (s : AgentState) (a : Bool) (f : Option String) (now : Nat) :
      ReachableSafe s → ReachableSafe (s.approve a f now)
  | clone (s : AgentState) : ReachableSafe s → ReachableSafe s.clone
  | roundtrip (s : AgentState) :
      ReachableSafe s → ReachableSafe (AgentState.deserialize (AgentState.serialize s))

/-- C7 (amended): the invariant holds for every state reachable by the public
operations provided `setNextAgent` is never called while an approval is
pending (every other operation preserves the invariant unconditionally). -/
theorem c7_invariant (s : AgentState) (h : ReachableSafe s)
    (hp : s.pendingApproval = true) : s.nextAgent = some humanSentinel := by
  revert hp
  induction h with
  | init => intro hp; exact absurd hp (by decide)
  | addMessage s m now _ ih =>
    intro hp
    simp only [AgentState.addMessage] at hp ⊢
    exact ih hp
  | setNextAgent s a hpf _ ih =>
    intro hp
    simp only [AgentState.setNextAgent] at hp
    rw [hpf] at hp
    exact absurd hp (by decide)
  | setMetadata s k v _ ih =>
    intro hp
    simp only [AgentState.setMetadata] at hp ⊢
    exact ih hp
  | requestApproval s _ _ =>
    intro _
    simp [AgentState.requestApproval]
  | approve s a f now _ _ =>
    intro hp
    rw [AgentState.approve_pendingApproval] at hp
    exact absurd hp (by decide)
  | clone s _ ih =>
    intro hp
    obtain ⟨_, hna, _, hpa, _, _⟩ := AgentState.clone_fields s
    rw [hpa] at hp
    rw [hna, ih hp]
    simp [falsyString, humanSentinel]
  | roundtrip s _ ih =>
    intro hp
    obtain ⟨_, hna, _, hpa, _, _⟩ := AgentState.roundtrip_fields s
    rw [hpa] at hp
    rw [hna, ih hp]
    simp [falsyString, humanSentinel]

/-- C7 (witness): the amended invariant applied to a concrete reachable
pending state. -/
theorem c7_invariant_witness :
    ((AgentState.construct none).requestApproval).nextAgent = some humanSentinel :=
  c7_invariant ((AgentState.construct none).requestApproval)
    (ReachableSafe.requestApproval _ ReachableSafe.init) (by decide)

/-! ### C5 — `clone()` and shared mutable substructure (reference level) -/

/-- Reference-level view of an `AgentState` for the aliasing behaviour of
`clone()`.  In JavaScript `this.messages` is an array of references to
`Message` objects and `this.metadata` an object whose values are references;
addresses are `Nat` and the heaps mapping an address to the current contents
of the referenced object are passed explicitly. -/
structure RefState where
  msgRefs : List Nat
  metaRefs : List (String × Nat)
deriving DecidableEq, Repr

/-- Method `clone()` at the reference level: `[...this.messages]` and
`{...this.metadata}` build NEW one-level containers holding the SAME element
references. -/
def RefState.clone (s : RefState) : RefState :=
  { msgRefs := s.msgRefs, metaRefs := s.metaRefs }

/-- The message list a holder of `s` observes under message heap `heap`. -/
def viewMessages (heap : Nat → Message) (s : RefState) : List Message :=
  s.msgRefs.map heap

/-- The metadata mapping a holder of `s` observes under value heap `vals`. -/
def viewMetadata (vals : Nat → MetaValue) (s : RefState) :
    List (String × MetaValue) :=
  s.metaRefs.map (fun p => (p.1, vals p.2))

/-- In-place mutation of the object stored at `addr` (e.g. assigning to a
field of a `Message` reached through the clone). -/
def writeHeap {α : Type} (heap : Nat → α) (addr : Nat) (v : α) : Nat → α :=
  fun a => if a = addr then v else heap a

/-- Initial heap for the C5 counterexample: one message object at address 0. -/
def c5Heap0 : Nat → Message :=
  fun _ => { role := "user", content := "hello", timestamp := none }

/-- Original state holding a reference to the message object at address 0. -/
def c5Orig : RefState := { msgRefs := [0], metaRefs := [] }

/-- Heap after mutating, through the clone, the message object at address 0. -/
def c5Heap1 : Nat → Message :=
  writeHeap c5Heap0 0 { role := "user", content := "tampered", timestamp := none }

/-- C5 (counterexample): `clone()` does NOT produce a copy free of shared
mutable substructure.  The clone holds a reference to the very same `Message`
object (address 0), and mutating that object through the clone changes the
message list observed through the original. -/
theorem c5_counterexample :
    0 ∈ (RefState.clone c5Orig).msgRefs ∧
    viewMessages c5Heap1 c5Orig ≠ viewMessages c5Heap0 c5Orig := by
  constructor
  · decide
  · decide

/-- C5 (amended): the copy is independent one level deep.  Writing to any
address not referenced by the original — in particular a freshly allocated
`Message` object appended to the message array of the clone, or a fresh value
assigned to a key of the metadata object of the clone — leaves every view of the original
unchanged.  Only in-place mutation of a shared element object (counterexample
above) leaks through. -/
theorem c5_one_level (heap : Nat → Message) (vals : Nat → MetaValue)
    (s : RefState) (a b : Nat) (m : Message) (v : MetaValue)
    (ha : a ∉ s.msgRefs) (hb : b ∉ s.metaRefs.map Prod.snd) :
    viewMessages (writeHeap heap a m) s = viewMessages heap s ∧
    viewMetadata (writeHeap vals b v) s = viewMetadata vals s := by
  constructor
  · refine List.map_congr_left ?_
    intro x hx
    unfold writeHeap
    rw [if_neg]
    intro h
    exact ha (h ▸ hx)
  · refine List.map_congr_left ?_
    intro p hp
    unfold writeHeap
    rw [if_neg]
    intro h
    exact hb (List.mem_map.mpr ⟨p, hp, h⟩)

/-- C5 (witness): the one-level independence theorem applied to the concrete
original state, writing at the fresh addresses 1 (messages) and 0 (metadata). -/
theorem c5_one_level_witness :
    viewMessages
        (writeHeap c5Heap0 1 { role := "user", content := "new", timestamp := none })
        c5Orig = viewMessages c5Heap0 c5Orig ∧
    viewMetadata (writeHeap (fun _ => MetaValue.nullv) 0 (MetaValue.num 7)) c5Orig =
      viewMetadata (fun _ => MetaValue.nullv) c5Orig :=
  c5_one_level c5Heap0 (fun _ => MetaValue.nullv) c5Orig 1 0
    { role := "user", content := "new", timestamp := none } (MetaValue.num 7)
    (by decide) (by decide)

/-! ### Graph executor (`graph.ts`) -/

/-- The agent contract `type AgentFunction = (state) => Promise<AgentState | null>`, generalised
over an environment `σ` threaded through calls: JS agents are closures that
may read and mutate shared state (the `visited` set of the cycle router).  A call
returns the final environment, the input state object after any in-place
mutations the agent performed, and the return value of the agent (`none` models
returning `null`). -/
def AgentFunction (σ : Type) : Type :=
  σ → AgentState → σ × AgentState × Option AgentState

/-- JS truthiness of the running `currentAgent` variable
(`string | null`; both `null` and `""` are falsy). -/
def truthyAgent : Option String → Bool
  | none => false
  | some s => !(s == "")

/-- The `AgentNotFound` error message thrown by `invoke` and `stream`. -/
def agentNotFoundMsg (name : String) : String :=
  "Agent \x27" ++ name ++ "\x27 not found"

/-- The `while` loop of `GraphExecutor.invoke` (graph.ts lines 70-120),
with explicit fuel: `none` means the loop is still running after `fuel`
entries (the loop has no intrinsic termination measure — see C1).
The checkpoint save (lines 109-111) writes only to the checkpoint manager
and touches none of `state`, `currentAgent`, `iterations`; it is elided from
this state-returning semantics.  Agent timeouts (real time) are outside the
model; an unknown agent name yields the thrown `AgentNotFound` error. -/
def invokeLoop {σ : Type} (agents : String → Option (AgentFunction σ))
    (maxIterations : Nat) (humanInTheLoop waitForHuman : Bool) :
    Nat → σ → AgentState → Option String → Nat →
    Option (σ × Except String AgentState)
  | 0, _, _, _, _ => none
  | fuel + 1, env, state, currentAgent, iterations =>
    if truthyAgent currentAgent ∧ iterations < maxIterations then
      if state.isWaitingForApproval && humanInTheLoop && waitForHuman then
        some (env, Except.ok state)
      else if currentAgent = some humanSentinel then
        if waitForHuman then some (env, Except.ok state)
        else
          invokeLoop agents maxIterations humanInTheLoop waitForHuman fuel env
            state state.getNextAgent iterations
      else
        match agents (currentAgent.getD "") with
        | none => some (env, Except.error (agentNotFoundMsg (currentAgent.getD "")))
        | some fn =>
          let r := fn env state
          let newState := r.2.2.getD r.2.1
          invokeLoop agents maxIterations humanInTheLoop waitForHuman fuel r.1
            newState newState.getNextAgent (iterations + 1)
    else some (env, Except.ok state)

/-- Method `GraphExecutor.invoke(inputState, startAgent, options)`: clone the input,
then run the loop from `startAgent` with `iterations = 0`. -/
def GraphExecutor.invoke {σ : Type} (agents : String → Option (AgentFunction σ))
    (maxIterations : Nat) (humanInTheLoop waitForHuman : Bool) (fuel : Nat)
    (env : σ) (inputState : AgentState) (startAgent : String) :
    Option (σ × Except String AgentState) :=
  invokeLoop agents maxIterations humanInTheLoop waitForHuman fuel env
    inputState.clone (some startAgent) 0

/-! ### C1 — termination of `invoke` -/

/-- An agent that performs an action and requests human approval
(the pattern of `createHumanInTheLoopGraph` and of the test suite of the
executor itself): it calls `state.requestApproval()` and returns the state. -/
def approvalAgent : AgentFunction Unit :=
  fun u state =>
    let mutated := state.requestApproval
    (u, mutated, some mutated)

/-- The agent registry containing only `approvalAgent`. -/
def approvalAgents : String → Option (AgentFunction Unit) :=
  fun name => if name = "worker" then some approvalAgent else none

/-- Once `currentAgent` is the human-pause sentinel, `waitForHuman` is false
and the `nextAgent` of the state is still the sentinel, the no-op hop reproduces
the same loop configuration without counting an iteration: no amount of fuel
finishes the loop. -/
theorem invokeLoop_sentinel_spins (st : AgentState)
    (hna : st.getNextAgent = some humanSentinel) (it : Nat) (hit : it < 10) :
    ∀ fuel env,
      invokeLoop approvalAgents 10 true false fuel env st (some humanSentinel) it
        = none := by
  intro fuel
  induction fuel with
  | zero => intro env; rfl
  | succ n ih =>
    intro env
    rw [invokeLoop]
    rw [if_pos ⟨by decide, hit⟩]
    have hw : (st.isWaitingForApproval && true && false) = false := by
      simp
    rw [hw]
    simp only [Bool.false_eq_true, if_false, if_pos rfl]
    rw [hna]
    exact ih env

/-- C1 is refuted: `invoke` does NOT terminate for every input.  Running the
executor (humanInTheLoop enabled, `maxIterations = 10`) on the approval
agent with `waitForHuman` false — the defaults of the repository call sites of
`invoke(state, agent)` — makes the sentinel no-op hop re-read
`nextAgent == "__human__"` forever without counting an iteration: for every
fuel bound the loop is still running. -/
theorem c1_invoke_nonterminating :
    ∀ fuel : Nat,
      GraphExecutor.invoke approvalAgents 10 true false fuel ()
        (AgentState.construct none) "worker" = none := by
  intro fuel
  match fuel with
  | 0 => rfl
  | n + 1 =>
    have hstep :
        GraphExecutor.invoke approvalAgents 10 true false (n + 1) ()
          (AgentState.construct none) "worker" =
        invokeLoop approvalAgents 10 true false n ()
          ((AgentState.construct none).clone.requestApproval)
          (some humanSentinel) 1 := by
      rfl
    rw [hstep]
    exact invokeLoop_sentinel_spins _ (by decide) 1 (by decide) n ()

/-! ### Streaming executor (`GraphExecutor.stream`) -/

/-- The `StreamEvent.type` values. -/
inductive StreamEventType where
  | agent_start
  | agent_complete
  | message
  | error
  | complete
deriving DecidableEq, Repr

/-- The `interface StreamEvent` of graph.ts. -/
structure StreamEvent where
  type : StreamEventType
  agentName : Option String := none
  message : Option Message := none
  error : Option String := none
  timestamp : Nat
deriving DecidableEq, Repr

/-- The `message` events emitted for the newly appended messages after an
agent invocation; `time` is the `Date.now()` oracle indexed by emission
count. -/
def messageEvents (agentName : String) (time : Nat → Nat) :
    Nat → List Message → List StreamEvent
  | _, [] => []
  | ec, m :: ms =>
    { type := StreamEventType.message, agentName := some agentName,
      message := some m, timestamp := time ec } :: messageEvents agentName time (ec + 1) ms

/-- The loop of `GraphExecutor.stream` (graph.ts lines 139-203), fully
consumed: returns the emitted events together with the outcome of the loop.
Unlike `invoke` it has NO pending-approval check and NO `__human__`
sentinel handling; on an unknown agent it emits an `error` event and
rethrows.  Fuel as in `invokeLoop`; the checkpoint save is elided as in
`invokeLoop`. -/
def streamLoop {σ : Type} (agents : String → Option (AgentFunction σ))
    (maxIterations : Nat) (time : Nat → Nat) :
    Nat → σ → AgentState → Option String → Nat → Nat →
    Option (List StreamEvent × σ × Except String AgentState)
  | 0, _, _, _, _, _ => none
  | fuel + 1, env, state, currentAgent, iterations, ec =>
    if truthyAgent currentAgent ∧ iterations < maxIterations then
      let name := currentAgent.getD ""
      let startEvt : StreamEvent :=
        { type := StreamEventType.agent_start, agentName := some name,
          timestamp := time ec }
      match agents name with
      | none =>
        let msg := agentNotFoundMsg name
        some ([startEvt,
          { type := StreamEventType.error, error := some msg,
            timestamp := time (ec + 1) }], env, Except.error msg)
      | some fn =>
        let messageCountBefore := state.messages.length
        let r := fn env state
        match r.2.2 with
        | some result =>
          let newMsgs := result.messages.drop messageCountBefore
          let msgEvts := messageEvents name time (ec + 1) newMsgs
          let nextA := result.getNextAgent
          let completeEvt : StreamEvent :=
            { type := StreamEventType.agent_complete,
              agentName := some (nextA.getD ""),
              timestamp := time (ec + 1 + newMsgs.length) }
          match streamLoop agents maxIterations time fuel r.1 result nextA
              (iterations + 1) (ec + 2 + newMsgs.length) with
          | none => none
          | some (evts, rest) =>
            some (startEvt :: msgEvts ++ completeEvt :: evts, rest)
        | none =>
          let nextA := r.2.1.getNextAgent
          let completeEvt : StreamEvent :=
            { type := StreamEventType.agent_complete,
              agentName := some (nextA.getD ""),
              timestamp := time (ec + 1) }
          match streamLoop agents maxIterations time fuel r.1 r.2.1 nextA
              (iterations + 1) (ec + 2) with
          | none => none
          | some (evts, rest) =>
            some (startEvt :: completeEvt :: evts, rest)
    else
      some ([{ type := StreamEventType.complete, timestamp := time ec }],
        env, Except.ok state)

/-- Method `GraphExecutor.stream(inputState, startAgent, options)`, fully consumed. -/
def GraphExecutor.stream {σ : Type} (agents : String → Option (AgentFunction σ))
    (maxIterations : Nat) (time : Nat → Nat) (fuel : Nat) (env : σ)
    (inputState : AgentState) (startAgent : String) :
    Option (List StreamEvent × σ × Except String AgentState) :=
  streamLoop agents maxIterations time fuel env inputState.clone
    (some startAgent) 0 0

/-- Decides whether an `invoke` run ever reaches one of the two branches that
`stream` does not have: the pending-approval suspension break and the
`__human__` sentinel handling.  Mirrors `invokeLoop` step for step. -/
def invokeAvoidsHuman {σ : Type} (agents : String → Option (AgentFunction σ))
    (maxIterations : Nat) (humanInTheLoop waitForHuman : Bool) :
    Nat → σ → AgentState → Option String → Nat → Bool
  | 0, _, _, _, _ => true
  | fuel + 1, env, state, currentAgent, iterations =>
    if truthyAgent currentAgent ∧ iterations < maxIterations then
      if state.isWaitingForApproval && humanInTheLoop && waitForHuman then false
      else if currentAgent = some humanSentinel then false
      else
        match agents (currentAgent.getD "") with
        | none => true
        | some fn =>
          let r := fn env state
          let newState := r.2.2.getD r.2.1
          invokeAvoidsHuman agents maxIterations humanInTheLoop waitForHuman fuel
            r.1 newState newState.getNextAgent (iterations + 1)
    else true

/-- If an `invoke` run never reaches the pending-approval break nor the
`__human__` sentinel branch, then the fully consumed `stream` runs the same
loop and produces the same outcome (environment and final state / error). -/
theorem streamLoop_agrees {σ : Type} (agents : String → Option (AgentFunction σ))
    (maxIterations : Nat) (hitl wait : Bool) (time : Nat → Nat) :
    ∀ (fuel : Nat) (env : σ) (state : AgentState) (ca : Option String)
      (it ec : Nat),
      invokeAvoidsHuman agents maxIterations hitl wait fuel env state ca it = true →
      (streamLoop agents maxIterations time fuel env state ca it ec).map
          (fun r => r.2) =
        invokeLoop agents maxIterations hitl wait fuel env state ca it := by
  intro fuel
  induction fuel with
  | zero => intro env state ca it ec _; rfl
  | succ n ih =>
    intro env state ca it ec hav
    simp only [invokeAvoidsHuman] at hav
    simp only [streamLoop, invokeLoop]
    by_cases hc : truthyAgent ca ∧ it < maxIterations
    · rw [if_pos hc] at hav ⊢
      rw [if_pos hc]
      split at hav
      · simp at hav
      · split at hav
        · simp at hav
        · rename_i hpend hsent
          rw [if_neg hpend, if_neg hsent]
          cases hag : agents (ca.getD "") with
          | none => simp [hag]
          | some fn =>
            simp only [hag] at hav ⊢
            cases hret : (fn env state).2.2 with
            | some result =>
              rw [hret] at hav
              simp only [hret, Option.getD_some] at hav ⊢
              have hrec := ih (fn env state).1 result result.getNextAgent (it + 1)
                (ec + 2 + (result.messages.drop state.messages.length).length) hav
              rw [← hrec]
              cases streamLoop agents maxIterations time n (fn env state).1 result
                  result.getNextAgent (it + 1)
                  (ec + 2 + (result.messages.drop state.messages.length).length) with
              | none => rfl
              | some p => rcases p with ⟨evts, rest⟩; rfl
            | none =>
              rw [hret] at hav
              simp only [hret, Option.getD_none] at hav ⊢
              have hrec := ih (fn env state).1 (fn env state).2.1
                (fn env state).2.1.getNextAgent (it + 1) (ec + 2) hav
              rw [← hrec]
              cases streamLoop agents maxIterations time n (fn env state).1
                  (fn env state).2.1 (fn env state).2.1.getNextAgent (it + 1)
                  (ec + 2) with
              | none => rfl
              | some p => rcases p with ⟨evts, rest⟩; rfl
    · rw [if_neg hc] at hav ⊢
      rw [if_neg hc]
      simp

/-! ### C2 — `stream` versus `invoke` -/

/-- The empty agent registry, used by the C2 counterexample. -/
def noAgents : String → Option (AgentFunction Unit) := fun _ => none

/-- C2 (counterexample): `stream` does NOT run the same loop as `invoke`.
Starting at the human-pause sentinel with `waitForHuman` false, `invoke`
performs the sentinel no-op hop and completes normally, while `stream` —
which has no sentinel handling at all — looks `"__human__"` up in the agent
registry and fails with `AgentNotFound`.  The two calls return different
outcomes on the same arguments. -/
theorem c2_counterexample :
    (GraphExecutor.stream noAgents 10 (fun _ => 0) 5 ()
        (AgentState.construct none) ("__human__")).map (fun r => r.2) ≠
      GraphExecutor.invoke noAgents 10 false false 5 ()
        (AgentState.construct none) ("__human__") := by
  have ha : (GraphExecutor.stream noAgents 10 (fun _ => 0) 5 ()
      (AgentState.construct none) ("__human__")).map (fun r => r.2) =
      some ((), Except.error (agentNotFoundMsg ("__human__"))) := rfl
  have hb : GraphExecutor.invoke noAgents 10 false false 5 ()
      (AgentState.construct none) ("__human__") =
      some ((), Except.ok (AgentState.construct none).clone) := rfl
  rw [ha, hb]
  simp

/-- C2 (amended): whenever the run never reaches the human-pause sentinel as
`currentAgent` and never enters the approval-suspension break (the two
branches `stream` lacks), fully consuming `stream` runs the same loop as
`invoke` with the same arguments and returns the same final state / error. -/
theorem c2_stream_matches_invoke (σ : Type)
    (agents : String → Option (AgentFunction σ)) (maxIterations : Nat)
    (hitl wait : Bool) (time : Nat → Nat) (fuel : Nat) (env : σ)
    (inputState : AgentState) (startAgent : String)
    (h : invokeAvoidsHuman agents maxIterations hitl wait fuel env
      inputState.clone (some startAgent) 0 = true) :
    (GraphExecutor.stream agents maxIterations time fuel env inputState
        startAgent).map (fun r => r.2) =
      GraphExecutor.invoke agents maxIterations hitl wait fuel env inputState
        startAgent :=
  streamLoop_agrees agents maxIterations hitl wait time fuel env
    inputState.clone (some startAgent) 0 0 h

/-- A one-shot agent that terminates the run (`nextAgent = null`). -/
def soloAgent : AgentFunction Unit :=
  fun u state =>
    let mutated := state.setNextAgent none
    (u, mutated, some mutated)

/-- Registry containing only `soloAgent`. -/
def soloAgents : String → Option (AgentFunction Unit) :=
  fun name => if name = "solo" then some soloAgent else none

/-- C2 (witness): the agreement theorem applied to a concrete run that never
touches the sentinel. -/
theorem c2_stream_matches_invoke_witness :
    (GraphExecutor.stream soloAgents 10 (fun _ => 0) 5 ()
        (AgentState.construct none) ("solo")).map (fun r => r.2) =
      GraphExecutor.invoke soloAgents 10 false false 5 ()
        (AgentState.construct none) ("solo") :=
  c2_stream_matches_invoke Unit soloAgents 10 false false (fun _ => 0) 5 ()
    (AgentState.construct none) ("solo") (by decide)

/-! ### C4 — `createCyclicGraph` and the A -> B -> A scenario -/

/-- The wrapper `createCyclicGraph` puts around each agent (graph.ts lines
336-357).  The router-instance `visited` set (a closure-captured mutable
`Set<string>` in JS) is the threaded environment; `now` is the `Date.now()`
oracle for the cycle message.  The wrapper reads the `executionPath` metadata
(`|| []` when absent; the code only ever stores a string list there),
extends it with the current agent name, joins it into a path signature, and
either breaks (signature already seen) or records the signature and runs the
wrapped agent. -/
def wrapCyclic (name : String) (inner : AgentFunction (List String)) (now : Nat) :
    AgentFunction (List String) :=
  fun visited state =>
    let path := match state.getMetadata ("executionPath") with
      | some (MetaValue.strList l) => l
      | _ => []
    let currentPath := path ++ [name]
    let pathKey := String.intercalate ("->") currentPath
    if pathKey ∈ visited then
      let st2 := (state.addMessage
        { role := "system",
          content := "Cycle detected at " ++ name ++ ". Breaking cycle.",
          timestamp := none } now).setNextAgent none
      (visited, st2, some st2)
    else
      let st2 := state.setMetadata ("executionPath") (MetaValue.strList currentPath)
      inner (pathKey :: visited) st2

/-- An agent that routes to agent B and returns the state. -/
def agentToB : AgentFunction (List String) :=
  fun v state =>
    let mutated := state.setNextAgent (some ("B"))
    (v, mutated, some mutated)

/-- An agent that routes to agent A and returns the state. -/
def agentToA : AgentFunction (List String) :=
  fun v state =>
    let mutated := state.setNextAgent (some ("A"))
    (v, mutated, some mutated)

/-- The registry `createCyclicGraph({A, B})` builds: each agent wrapped by
`wrapCyclic`, sharing one `visited` set. -/
def cyclicAgentsAB (now : Nat) : String → Option (AgentFunction (List String)) :=
  fun n =>
    if n = "A" then some (wrapCyclic ("A") agentToB now)
    else if n = "B" then some (wrapCyclic ("B") agentToA now)
    else none

/-- The C4 scenario: two agents `A -> B -> A`, wrapped by the cycle-breaking
router, run via `invoke` with the executor defaults (`maxIterations = 10`,
no human-in-the-loop, fresh `visited` set, fresh state). -/
def c4Run : Option (List String × Except String AgentState) :=
  GraphExecutor.invoke (cyclicAgentsAB 0) 10 false false 20 []
    (AgentState.construct none) ("A")

/-- The final state of the C4 scenario (the run does complete normally). -/
def c4FinalState : AgentState :=
  match c4Run with
  | some (_, Except.ok st) => st
  | _ => AgentState.construct none

/-- C4 is refuted: the path signature grows with every step
(`A`, `A->B`, `A->B->A`, ...), so it never repeats within a single run and
the cycle is NEVER detected.  The run returns normally after hitting the
iteration cap: the final state contains NO system message (in particular no
cycle notice), `nextAgent` is still `"A"` (not null), and the execution path
shows all ten iterations. -/
theorem c4_cycle_never_detected :
    (match c4Run with
      | some (_, Except.ok _) => true
      | _ => false) = true ∧
    c4FinalState.messages = [] ∧
    c4FinalState.nextAgent = some ("A") ∧
    c4FinalState.getMetadata ("executionPath") =
      some (MetaValue.strList
        ["A", "B", "A", "B", "A", "B", "A", "B", "A", "B"]) := by
  refine ⟨by decide, by decide, by decide, by decide⟩

/-! ### C9 — the parallel fan-out router -/

/-- A fan-out branch call `agents[name]?.(state.clone())` (graph.ts line
375): `none` covers both a missing agent (`undefined`) and an agent that
returned `null`; in-place mutations of the discarded clone are
unobservable, so a branch agent is just `AgentState → Option AgentState`. -/
def branchResult (agents : String → Option (AgentState → Option AgentState))
    (state : AgentState) (name : String) : Option AgentState :=
  match agents name with
  | none => none
  | some fn => fn state.clone

/-- The inner merge loop of the parallel agent: for each message of a branch
result, append it (via `addMessage`, hence timestamp defaulting) unless some
already-merged message has the same content. -/
def mergeBranchMessages (now : Nat) : AgentState → List Message → AgentState
  | acc, [] => acc
  | acc, msg :: rest =>
    if acc.messages.any (fun m => m.content == msg.content) then
      mergeBranchMessages now acc rest
    else
      mergeBranchMessages now (acc.addMessage msg now) rest

/-- The outer merge loop: falsy branch results (missing agent or `null`
return) are skipped. -/
def mergeResults (now : Nat) : AgentState → List (Option AgentState) → AgentState
  | acc, [] => acc
  | acc, none :: rest => mergeResults now acc rest
  | acc, some result :: rest =>
    mergeResults now (mergeBranchMessages now acc result.messages) rest

/-- Fan-out over an explicit target list and fan-in of the results
(the body of the `__parallel__` agent after reading `parallelTargets`).
`Promise.all` preserves list order and each branch runs on an independent
clone of pure agents, so the concurrent join is modelled by the ordered
merge. -/
def parallelMerge (agents : String → Option (AgentState → Option AgentState))
    (now : Nat) (state : AgentState) (targets : List String) : AgentState :=
  mergeResults now state.clone (targets.map (branchResult agents state))

/-- The `__parallel__` agent installed by `createParallelGraph` (graph.ts
lines 371-392): read `parallelTargets` (`|| []`), fan out, merge, and clear
the target list. -/
def parallelAgent (agents : String → Option (AgentState → Option AgentState))
    (now : Nat) (state : AgentState) : AgentState :=
  let targets := match state.getMetadata ("parallelTargets") with
    | some (MetaValue.strList l) => l
    | _ => []
  (parallelMerge agents now state targets).setMetadata ("parallelTargets")
    (MetaValue.strList [])

theorem alistGet_alistSet_self {α : Type} (l : List (String × α)) (k : String)
    (v : α) : alistGet (alistSet l k v) k = some v := by
  induction l with
  | nil => simp [alistGet, alistSet]
  | cons p rest ih =>
    by_cases h : p.1 = k
    · simp [alistSet, alistGet, h]
    · simp [alistSet, alistGet, h, ih]

theorem mergeResults_append (now : Nat) (acc : AgentState)
    (xs ys : List (Option AgentState)) :
    mergeResults now acc (xs ++ ys) = mergeResults now (mergeResults now acc xs) ys := by
  induction xs generalizing acc with
  | nil => rfl
  | cons x rest ih => cases x <;> simp [mergeResults, ih]

/-- C9: a name listed in `parallelTargets` with no registered agent is
silently skipped — the model raises nothing (`parallelAgent` is total) and
the merged result of a target list containing the unregistered name `g` is
exactly the merged result without it; and after the parallel agent runs,
`parallelTargets` is always reset to the empty list. -/
theorem c9_parallel_skip (agents : String → Option (AgentState → Option AgentState))
    (now : Nat) (state : AgentState) (g : String) (ts1 ts2 : List String)
    (hg : agents g = none) :
    (parallelAgent agents now state).getMetadata ("parallelTargets") =
      some (MetaValue.strList []) ∧
    parallelMerge agents now state (ts1 ++ g :: ts2) =
      parallelMerge agents now state (ts1 ++ ts2) := by
  constructor
  · simp only [parallelAgent, AgentState.getMetadata, AgentState.setMetadata]
    exact alistGet_alistSet_self _ _ _
  · simp only [parallelMerge, List.map_append, List.map_cons]
    rw [mergeResults_append, mergeResults_append]
    have hbr : branchResult agents state g = none := by
      simp [branchResult, hg]
    rw [hbr]
    rfl

/-- The empty branch-agent registry, for the C9 witness. -/
def noParallelAgents : String → Option (AgentState → Option AgentState) :=
  fun _ => none

/-- C9 (witness): the skip theorem applied to a concrete unregistered target. -/
theorem c9_parallel_skip_witness :
    (parallelAgent noParallelAgents 0 (AgentState.construct none)).getMetadata
        ("parallelTargets") = some (MetaValue.strList []) ∧
    parallelMerge noParallelAgents 0 (AgentState.construct none)
        ([] ++ "ghost" :: []) =
      parallelMerge noParallelAgents 0 (AgentState.construct none) ([] ++ []) :=
  c9_parallel_skip noParallelAgents 0 (AgentState.construct none) ("ghost") [] []
    rfl

/-! ### Checkpoint store (`CheckpointManager`) and C8 -/

/-- The `interface Checkpoint` of state.ts; `state` is the serialized blob. -/
structure Checkpoint where
  id : String
  threadId : String
  timestamp : Nat
  state : PartialState
deriving DecidableEq, Repr

/-- The `class CheckpointManager`: the two `Map`s, as association lists. -/
structure CheckpointManager where
  checkpoints : List (String × List Checkpoint)
  threadIndex : List (String × List String)
deriving DecidableEq, Repr

/-- A freshly constructed `CheckpointManager` (both maps empty). -/
def CheckpointManager.empty : CheckpointManager :=
  { checkpoints := [], threadIndex := [] }

/-- The checkpoint id template
`ckpt-${threadId}-${Date.now()}-${Math.random().toString(36).substr(2, 9)}`;
`now` and `rand` are the oracles for the two impure calls. -/
def mkCheckpointId (threadId : String) (now : Nat) (rand : String) : String :=
  "ckpt-" ++ threadId ++ "-" ++ Nat.repr now ++ "-" ++ rand

/-- Method `saveCheckpoint(threadId, state)` (state.ts lines 211-231).  The
"ensure list exists, then push" idiom is get-with-default / append / set;
the two `Date.now()` calls (id and `timestamp` field) are modelled by the
same oracle value `now`. -/
def CheckpointManager.saveCheckpoint (m : CheckpointManager) (threadId : String)
    (state : AgentState) (now : Nat) (rand : String) :
    String × CheckpointManager :=
  let checkpointId := mkCheckpointId threadId now rand
  let checkpoint : Checkpoint :=
    { id := checkpointId, threadId := threadId, timestamp := now,
      state := state.serialize }
  let cks := (alistGet m.checkpoints threadId).getD [] ++ [checkpoint]
  let m1 := { m with checkpoints := alistSet m.checkpoints threadId cks }
  let idx := (alistGet m1.threadIndex threadId).getD [] ++ [checkpointId]
  let m2 := { m1 with threadIndex := alistSet m1.threadIndex threadId idx }
  (checkpointId, m2)

/-- Method `getCheckpoints(threadId)`: the ordered list of the thread, `[]` if none. -/
def CheckpointManager.getCheckpoints (m : CheckpointManager)
    (threadId : String) : List Checkpoint :=
  (alistGet m.checkpoints threadId).getD []

/-- A sequence of `saveCheckpoint` calls on one thread, with the oracle
values drawn by each call; returns the ids in call order and the final
manager. -/
def saveChain (threadId : String) :
    CheckpointManager → List (AgentState × Nat × String) →
    List String × CheckpointManager
  | m, [] => ([], m)
  | m, c :: rest =>
    let r := m.saveCheckpoint threadId c.1 c.2.1 c.2.2
    let r2 := saveChain threadId r.2 rest
    (r.1 :: r2.1, r2.2)

theorem digitChar_ne_dash (n : Nat) : Nat.digitChar n ≠ '-' := by
  match n with
  | 0 | 1 | 2 | 3 | 4 | 5 | 6 | 7 | 8 | 9 | 10 | 11 | 12 | 13 | 14 | 15 => decide
  | m + 16 =>
    have h : Nat.digitChar (m + 16) = '*' := rfl
    rw [h]; decide

theorem toDigitsCore_ne_dash :
    ∀ (fuel n : Nat) (acc : List Char), ('-') ∉ acc →
      ('-') ∉ Nat.toDigitsCore 10 fuel n acc := by
  intro fuel
  induction fuel with
  | zero => intro n acc hacc; simpa [Nat.toDigitsCore] using hacc
  | succ f ih =>
    intro n acc hacc
    have hcons : ('-') ∉ Nat.digitChar (n % 10) :: acc := by
      intro hmem
      rcases List.mem_cons.mp hmem with h | h
      · exact digitChar_ne_dash (n % 10) h.symm
      · exact hacc h
    simp only [Nat.toDigitsCore]
    split
    · exact hcons
    · exact ih (n / 10) _ hcons

theorem repr_ne_dash (n : Nat) : ('-') ∉ (Nat.repr n).data := by
  have h : (Nat.repr n).data = Nat.toDigitsCore 10 (n + 1) n [] := rfl
  rw [h]
  exact toDigitsCore_ne_dash (n + 1) n [] (by simp)

theorem splitAtDash :
    ∀ (d1 d2 r1 r2 : List Char), ('-') ∉ d1 → ('-') ∉ d2 →
      d1 ++ '-' :: r1 = d2 ++ '-' :: r2 → d1 = d2 ∧ r1 = r2 := by
  intro d1
  induction d1 with
  | nil =>
    intro d2 r1 r2 _ h2 heq
    cases d2 with
    | nil => simpa using heq
    | cons c d2t =>
      simp only [List.nil_append, List.cons_append, List.cons.injEq] at heq
      exact absurd (heq.1.symm ▸ List.mem_cons_self c d2t) h2
  | cons c d1t ih =>
    intro d2 r1 r2 h1 h2 heq
    cases d2 with
    | nil =>
      simp only [List.nil_append, List.cons_append, List.cons.injEq] at heq
      exact absurd (heq.1 ▸ List.mem_cons_self c d1t) h1
    | cons c2 d2t =>
      simp only [List.cons_append, List.cons.injEq] at heq
      obtain ⟨hd, hr⟩ := ih d2t r1 r2
        (fun hm => h1 (List.mem_cons_of_mem c hm))
        (fun hm => h2 (List.mem_cons_of_mem c2 hm)) heq.2
      exact ⟨by rw [heq.1, hd], hr⟩

/-- Two checkpoint ids for the same thread coincide only if the random
suffixes coincide (given dash-free suffixes, as `toString(36)` produces). -/
theorem mkCheckpointId_rand_inj (threadId : String) (n1 n2 : Nat)
    (r1 r2 : String) (h1 : ('-') ∉ r1.data) (h2 : ('-') ∉ r2.data)
    (heq : mkCheckpointId threadId n1 r1 = mkCheckpointId threadId n2 r2) :
    r1 = r2 := by
  have hd := congrArg String.data heq
  simp only [mkCheckpointId, String.data_append, List.append_assoc] at hd
  have hd1 := List.append_cancel_left hd
  have hd2 := List.append_cancel_left hd1
  have hd3 := List.append_cancel_left hd2
  simp only [List.singleton_append] at hd3
  have := (splitAtDash (Nat.repr n1).data (Nat.repr n2).data r1.data r2.data
    (repr_ne_dash n1) (repr_ne_dash n2) hd3).2
  cases r1; cases r2; exact congrArg String.mk this

theorem saveChain_fst (threadId : String) :
    ∀ (calls : List (AgentState × Nat × String)) (m : CheckpointManager),
      (saveChain threadId m calls).1 =
        calls.map (fun c => mkCheckpointId threadId c.2.1 c.2.2) := by
  intro calls
  induction calls with
  | nil => intro m; rfl
  | cons c rest ih =>
    intro m
    simp only [saveChain, CheckpointManager.saveCheckpoint, List.map_cons]
    rw [ih]

theorem saveCheckpoint_getCheckpoints (m : CheckpointManager) (threadId : String)
    (st : AgentState) (now : Nat) (rand : String) :
    ((m.saveCheckpoint threadId st now rand).2).getCheckpoints threadId =
      m.getCheckpoints threadId ++
        [{ id := mkCheckpointId threadId now rand, threadId := threadId,
           timestamp := now, state := st.serialize }] := by
  simp only [CheckpointManager.saveCheckpoint, CheckpointManager.getCheckpoints]
  rw [alistGet_alistSet_self]
  rfl

theorem saveChain_ids (threadId : String) :
    ∀ (calls : List (AgentState × Nat × String)) (m : CheckpointManager),
      (((saveChain threadId m calls).2).getCheckpoints threadId).map
          (fun c => c.id) =
        (m.getCheckpoints threadId).map (fun c => c.id) ++
          (saveChain threadId m calls).1 := by
  intro calls
  induction calls with
  | nil => intro m; simp [saveChain]
  | cons c rest ih =>
    intro m
    simp only [saveChain]
    rw [ih]
    rw [saveCheckpoint_getCheckpoints]
    simp [CheckpointManager.saveCheckpoint, List.map_append]

/-- C8 (counterexample): the ids are NOT unconditionally pairwise distinct.
The id embeds only the thread, the millisecond timestamp and the random
suffix, so two saves in the same millisecond for which `Math.random()`
yields the same suffix — possible, since the suffix is only 9 base-36
characters of one `Math.random()` draw — return identical ids. -/
theorem c8_counterexample :
    ¬ ((saveChain ("t") CheckpointManager.empty
        [(AgentState.construct none, 5, "abc"),
         (AgentState.construct none, 5, "abc")]).1.Pairwise
          (fun a b => a ≠ b)) := by
  intro h
  rcases List.pairwise_cons.mp h with ⟨hab, _⟩
  exact hab _ (by simp [saveChain, CheckpointManager.saveCheckpoint]) rfl

/-- C8 (amended): for every sequence of `saveCheckpoint` calls on one thread,
the returned ids are pairwise distinct PROVIDED the random suffixes drawn by
the calls are pairwise distinct (they are dash-free base-36 strings, and the
id collides only when timestamp and suffix both repeat); and — without any
proviso — `getCheckpoints` returns the checkpoints in exactly save order,
their ids being the returned ids in order. -/
theorem c8_ids_distinct_ordered (m0 : CheckpointManager) (threadId : String)
    (calls : List (AgentState × Nat × String))
    (hdash : ∀ c ∈ calls, ('-') ∉ c.2.2.data)
    (hdist : calls.Pairwise (fun c c2 => c.2.2 ≠ c2.2.2)) :
    ((saveChain threadId m0 calls).1).Pairwise (fun a b => a ≠ b) ∧
    (((saveChain threadId m0 calls).2).getCheckpoints threadId).map
        (fun c => c.id) =
      (m0.getCheckpoints threadId).map (fun c => c.id) ++
        (saveChain threadId m0 calls).1 := by
  constructor
  · rw [saveChain_fst]
    rw [List.pairwise_map]
    refine List.Pairwise.imp_of_mem ?_ hdist
    intro a b ha hb hne heq
    exact hne (mkCheckpointId_rand_inj threadId a.2.1 b.2.1 a.2.2 b.2.2
      (hdash a ha) (hdash b hb) heq)
  · exact saveChain_ids threadId calls m0

/-- C8 (witness): the amended theorem applied to two concrete saves with
distinct random suffixes. -/
theorem c8_ids_distinct_ordered_witness :
    ((saveChain ("t") CheckpointManager.empty
        [(AgentState.construct none, 5, "abc"),
         (AgentState.construct none, 6, "xyz")]).1).Pairwise (fun a b => a ≠ b) ∧
    (((saveChain ("t") CheckpointManager.empty
        [(AgentState.construct none, 5, "abc"),
         (AgentState.construct none, 6, "xyz")]).2).getCheckpoints ("t")).map
        (fun c => c.id) =
      ((CheckpointManager.empty).getCheckpoints ("t")).map (fun c => c.id) ++
        (saveChain ("t") CheckpointManager.empty
          [(AgentState.construct none, 5, "abc"),
           (AgentState.construct none, 6, "xyz")]).1 :=
  c8_ids_distinct_ordered CheckpointManager.empty ("t")
    [(AgentState.construct none, 5, "abc"),
     (AgentState.construct none, 6, "xyz")]
    (by decide) (by decide)
